import Mathlib

/-
Verification of the client-side core of a transit-schedule mini-app:
the response cache (cache.js), the favorites registry (favorites.js),
the cache-augmented fetch wrapper (api.js), and the next-departure
calculator plus batch loader (App.jsx).

JavaScript code is shallowly embedded:
- `localStorage` becomes explicit state passed in and out of each
  operation (an association list for the namespaced cache keys, an
  `Option (List Favorite)` for the single favorites key);
- JSON-serializable data values become the scalar `JsValue` type
  (composite JSON values are uniformly truthy in JS, so scalars
  suffice to express every truthiness distinction the code makes);
- JS truthiness tests (`if (x)`, `!x`, `x ? a : b`) are modelled by
  explicit `truthy` functions;
- thrown exceptions become `Except Unit`;
- the wall clock and the HTTP transport are injected as parameters.
-/

/-! ## JavaScript string and number helpers

The source parses times with `time.substring(0,5).split(':').map(Number)`.
We model `split` and `Number` on the character list of the string with
structurally recursive functions. `Number` applied to a string of decimal
digits yields its value; on a malformed piece JS would yield `NaN` (which
makes every comparison false); the embedding maps that case to 0 — the
claims only concern well-formed "HH:MM[:SS]" strings, delimited below by
`validTime`. -/

def splitCharAux (sep : Char) : List Char → List Char → List (List Char)
  | [], acc => [acc.reverse]
  | c :: cs, acc =>
    if c == sep then acc.reverse :: splitCharAux sep cs []
    else splitCharAux sep cs (c :: acc)

def splitChar (sep : Char) (cs : List Char) : List (List Char) :=
  splitCharAux sep cs []

def digitVal (c : Char) : Nat := c.toNat - 48

def decDigitsAux : List Char → Nat → Option Nat
  | [], acc => some acc
  | c :: cs, acc => if c.isDigit then decDigitsAux cs (acc * 10 + digitVal c) else none

/-- Model of JS `Number(s)` restricted to the digit strings the schedule
contains; non-digit input (JS `NaN`) is collapsed to 0. -/
def strToNum (cs : List Char) : Nat :=
  (decDigitsAux cs 0).getD 0

/-- Model of `s.substring(0, 5)`. -/
def substring5 (s : String) : String :=
  String.mk (s.data.take 5)

/-- Checks that a string has the shape "HH:MM" or "HH:MM:SS" (digits and
colons at the right positions). This delimits the schedule strings the
claims quantify over. -/
def validTime (s : String) : Bool :=
  match s.data with
  | [h1, h2, c1, m1, m2] =>
    h1.isDigit && h2.isDigit && c1 == ':' && m1.isDigit && m2.isDigit
  | [h1, h2, c1, m1, m2, c2, s1, s2] =>
    h1.isDigit && h2.isDigit && c1 == ':' && m1.isDigit && m2.isDigit &&
      c2 == ':' && s1.isDigit && s2.isDigit
  | _ => false

/-! ## Next-Departure Calculator (App.jsx, `getNextDeparture`) -/

/-- Result shape `{ time, diffMin }` of the next-departure computation. -/
structure Departure where
  time : String
  diffMin : Int
deriving DecidableEq, Repr

/-- Embeds `const [h, m] = time.substring(0, 5).split(':').map(Number)`. -/
def parseHM (time : String) : Nat × Nat :=
  match (splitChar ':' (substring5 time).data).map strToNum with
  | h :: m :: _ => (h, m)
  | [h] => (h, 0)
  | [] => (0, 0)

/-- Embeds the mapping lambda of `getNextDeparture`:
`{ time: time.substring(0,5), totalMin: h < 4 ? (h+24)*60+m : h*60+m }`. -/
def normalizeScheduleEntry (time : String) : String × Nat :=
  let hm := parseHM time
  let totalMin := if hm.1 < 4 then (hm.1 + 24) * 60 + hm.2 else hm.1 * 60 + hm.2
  (substring5 time, totalMin)

/-- Embeds `allTimes.sort((a, b) => a.totalMin - b.totalMin)`: a stable
ascending sort on `totalMin` (JS `Array.prototype.sort` is stable). -/
def sortByTotalMin (l : List (String × Nat)) : List (String × Nat) :=
  List.insertionSort (fun a b => a.2 ≤ b.2) l

/-- Embeds `getNextDeparture(scheduleData)` from App.jsx with the current
wall-clock time injected as `nowH`/`nowM` (the source reads
`now.getHours()` and `now.getMinutes()`). -/
def getNextDeparture (scheduleData : List String) (nowH nowM : Nat) : Option Departure :=
  if scheduleData.isEmpty then none
  else
    let currentMinutes := nowH * 60 + nowM
    let normalizedNow :=
      if currentMinutes < 4 * 60 then currentMinutes + 24 * 60 else currentMinutes
    let allTimes := scheduleData.map normalizeScheduleEntry
    let sorted := sortByTotalMin allTimes
    match sorted.find? (fun t => normalizedNow < t.2) with
    | none => none
    | some next => some ⟨next.1, (next.2 : Int) - (normalizedNow : Int)⟩

/-- Written from the spec's words for claim C1: each schedule entry is
normalized "by adding 1440 minutes when the hour is less than 4". -/
def specNormalizeEntry (time : String) : String × Nat :=
  let hm := parseHM time
  (substring5 time, hm.1 * 60 + hm.2 + (if hm.1 < 4 then 1440 else 0))

/-- Written from the spec's words for claim C1: normalize the current time
and every entry (shift +1440 when hour < 4), sort ascending by normalized
total minutes, return the first entry strictly after the normalized now as
`{time, diffMin}`, and null when no entry qualifies (in particular on the
empty schedule). -/
def nextDepartureSpec (scheduleData : List String) (nowH nowM : Nat) : Option Departure :=
  let normalizedNow := nowH * 60 + nowM + (if nowH < 4 then 1440 else 0)
  let sorted := sortByTotalMin (scheduleData.map specNormalizeEntry)
  (sorted.find? (fun t => normalizedNow < t.2)).map
    (fun t => ⟨t.1, (t.2 : Int) - (normalizedNow : Int)⟩)

lemma normalizeScheduleEntry_eq_spec (time : String) :
    normalizeScheduleEntry time = specNormalizeEntry time := by
  unfold normalizeScheduleEntry specNormalizeEntry
  by_cases h4 : (parseHM time).1 < 4
  · simp only [h4, if_true, Prod.mk.injEq, true_and]
    ring
  · simp [h4]

/-- C1: for every list of "HH:MM[:SS]" schedule strings and every wall-clock
time, `getNextDeparture` normalizes the current time and every entry by
adding 1440 minutes when the hour is below 4, sorts by normalized minutes,
and returns the first entry strictly after the normalized now as
`{time: truncated string, diffMin: totalMin - normalizedNow}`, or null when
no entry qualifies (in particular on the empty schedule); equivalently it
agrees with `nextDepartureSpec`, the direct transcription of the spec. -/
theorem C1_getNextDeparture_correct (scheduleData : List String) (nowH nowM : Nat)
    (hm : nowM < 60) (hvalid : ∀ s ∈ scheduleData, validTime s = true) :
    getNextDeparture scheduleData nowH nowM = nextDepartureSpec scheduleData nowH nowM := by
  have hfun : scheduleData.map normalizeScheduleEntry = scheduleData.map specNormalizeEntry :=
    List.map_congr_left (fun s _ => normalizeScheduleEntry_eq_spec s)
  have hnow : (if nowH * 60 + nowM < 4 * 60 then nowH * 60 + nowM + 24 * 60
      else nowH * 60 + nowM) = nowH * 60 + nowM + (if nowH < 4 then 1440 else 0) := by
    by_cases h4 : nowH < 4
    · have hlt : nowH * 60 + nowM < 4 * 60 := by omega
      simp [h4, hlt]
    · have hge : ¬ nowH * 60 + nowM < 4 * 60 := by omega
      simp [h4, hge]
  cases scheduleData with
  | nil => rfl
  | cons a as =>
    unfold getNextDeparture nextDepartureSpec
    simp only [List.isEmpty_cons, if_neg, Bool.false_eq_true, not_false_iff, ite_false, hfun, hnow]
    cases hfind : (sortByTotalMin ((a :: as).map specNormalizeEntry)).find?
        (fun t => nowH * 60 + nowM + (if nowH < 4 then 1440 else 0) < t.2) with
    | none => simp
    | some next => simp

/-- Witness for C1 at the spec's concrete example: current time 23:55 with
schedule ["23:50","00:10","02:00"] yields `{time:"00:10", diffMin:15}`. -/
theorem C1_witness :
    getNextDeparture ["23:50", "00:10", "02:00"] 23 55 = some ⟨"00:10", 15⟩ := by
  have h := C1_getNextDeparture_correct ["23:50", "00:10", "02:00"] 23 55
    (by decide) (by decide)
  rw [h]
  decide

/-! ## JSON values, truthiness, and the localStorage model -/

/-- Scalar JSON values. Composite JSON values (objects, arrays) are always
truthy in JS, so a nonempty string already exhibits their behavior in every
truthiness test the embedded code performs. -/
inductive JsValue where
  | null
  | bool (b : Bool)
  | num (n : Int)
  | str (s : String)
deriving DecidableEq, Repr

/-- JavaScript truthiness of a value. -/
def truthy : JsValue → Bool
  | .null => false
  | .bool b => b
  | .num n => n != 0
  | .str s => s != ""

/-- JavaScript truthiness of a nullable value (`null`/absent is falsy). -/
def truthyOpt : Option JsValue → Bool
  | none => false
  | some v => truthy v

/-- Cache entry `{ data, timestamp }` as serialized into localStorage. -/
structure CacheItem where
  data : JsValue
  timestamp : Int
deriving DecidableEq, Repr

/-- The slice of localStorage the cache uses: full key to parsed entry. -/
abbrev LocalStore := List (String × CacheItem)

def lsGet (store : LocalStore) (k : String) : Option CacheItem :=
  (store.find? (fun p => p.1 == k)).map (fun p => p.2)

def lsRemove (store : LocalStore) (k : String) : LocalStore :=
  store.filter (fun p => !(p.1 == k))

def lsSet (store : LocalStore) (k : String) (v : CacheItem) : LocalStore :=
  (k, v) :: lsRemove store k

/-! ## Response Cache (cache.js) -/

def CACHE_PREFIX : String := "gtfs_cache_"

/-- 24 hours in milliseconds. -/
def CACHE_DURATION : Int := 24 * 60 * 60 * 1000

/-- Embeds `setCache(key, data)` with the clock injected. -/
def setCache (store : LocalStore) (key : String) (data : JsValue) (now : Int) : LocalStore :=
  lsSet store (CACHE_PREFIX ++ key) ⟨data, now⟩

/-- Embeds `getCache(key)`: returns the value (or null) and the possibly
updated store (the expiry branch removes the entry). -/
def getCache (store : LocalStore) (key : String) (now : Int) : Option JsValue × LocalStore :=
  match lsGet store (CACHE_PREFIX ++ key) with
  | none => (none, store)
  | some cacheItem =>
    let age := now - cacheItem.timestamp
    if age > CACHE_DURATION then (none, lsRemove store (CACHE_PREFIX ++ key))
    else (some cacheItem.data, store)

/-- Counterexample to C2: an entry whose age is exactly the 24-hour TTL is
NOT treated as expired — `getCache` still returns its value and keeps the
entry (the code tests `age > CACHE_DURATION`, not `age >= CACHE_DURATION`). -/
theorem C2_counterexample :
    getCache [("gtfs_cache_k", ⟨JsValue.str "v", 0⟩)] "k" CACHE_DURATION
      = (some (JsValue.str "v"), [("gtfs_cache_k", ⟨JsValue.str "v", 0⟩)]) := by
  decide

/-- C2 (amended): for every cached entry, `getCache` returns null — removing
the stored entry as a side effect, regardless of its value — once the
entry's age strictly exceeds the 24-hour TTL; an entry whose age is less
than or EQUAL to the TTL still has its value returned, with the store left
unchanged. -/
theorem C2_getCache_ttl (store : LocalStore) (key : String) (now : Int) (item : CacheItem)
    (hfind : lsGet store (CACHE_PREFIX ++ key) = some item) :
    (CACHE_DURATION < now - item.timestamp →
      getCache store key now = (none, lsRemove store (CACHE_PREFIX ++ key))) ∧
    (now - item.timestamp ≤ CACHE_DURATION →
      getCache store key now = (some item.data, store)) := by
  unfold getCache
  rw [hfind]
  constructor
  · intro h
    simp only [gt_iff_lt, if_pos h]
  · intro h
    have hnot : ¬ now - item.timestamp > CACHE_DURATION := by omega
    simp [hnot]

/-- Witness for C2 at concrete inputs: a fresh entry is returned unchanged,
and an over-age entry is dropped. -/
theorem C2_witness :
    getCache [("gtfs_cache_k", ⟨JsValue.num 7, 0⟩)] "k" 5
      = (some (JsValue.num 7), [("gtfs_cache_k", ⟨JsValue.num 7, 0⟩)]) ∧
    getCache [("gtfs_cache_k", ⟨JsValue.num 7, 0⟩)] "k" (CACHE_DURATION + 1)
      = (none, []) := by
  constructor
  · exact (C2_getCache_ttl _ "k" 5 ⟨JsValue.num 7, 0⟩ (by decide)).2 (by decide)
  · exact ((C2_getCache_ttl _ "k" (CACHE_DURATION + 1) ⟨JsValue.num 7, 0⟩
      (by decide)).1 (by decide)).trans (by decide)

/-! ## Favorites Registry (favorites.js)

A favorite is a JS object; fields that a given variant or a legacy entry
may lack are `Option`s. The registry state is the parsed content of the
single localStorage key `gtfs_favorites` (`none` = key absent). -/

structure Favorite where
  type : Option String := none
  routeName : String := ""
  routeLongName : Option String := none
  stopName : Option String := none
  direction : Option Int := none
  dayType : Option String := none
  timestamp : Option Int := none
  id : Option String := none
deriving DecidableEq, Repr

/-- JavaScript truthiness of an optional string field (absent, or present
and empty, is falsy). -/
def truthyS : Option String → Bool
  | none => false
  | some s => s != ""

/-- The parsed content of the favorites key. -/
abbrev FavStore := Option (List Favorite)

/-- Embeds the migration lambda of `getFavorites`:
`f.type ? f : {...f, type: f.stopName ? 'stop' : 'route'}`. -/
def migrateOne (f : Favorite) : Favorite :=
  if !truthyS f.type then
    { f with type := some (if truthyS f.stopName then "stop" else "route") }
  else f

/-- Embeds `getFavorites()`: returns the migrated list and the resulting
store (persisted back when some entry lacked a truthy `type`). -/
def getFavorites (store : FavStore) : List Favorite × FavStore :=
  let favorites := store.getD []
  let migrated := favorites.map migrateOne
  let hadChanges := favorites.any (fun f => !truthyS f.type)
  (migrated, if hadChanges then some migrated else store)

/-- String interpolation of a possibly-absent string (JS renders
`undefined`). -/
def showOS : Option String → String
  | none => "undefined"
  | some s => s

/-- String interpolation of a possibly-absent number. -/
def showOI : Option Int → String
  | none => "undefined"
  | some n => toString n

/-- Embeds the id computation of `addFavorite`:
`route_${routeName}` for the route variant, else
`${routeName}_${stopName}_${direction}_${dayType}`. -/
def deriveId (favorite : Favorite) : String :=
  if favorite.type = some "route" then "route_" ++ favorite.routeName
  else favorite.routeName ++ "_" ++ showOS favorite.stopName ++ "_" ++
    showOI favorite.direction ++ "_" ++ showOS favorite.dayType

/-- Embeds `addFavorite(favorite)` with the clock injected. -/
def addFavorite (store : FavStore) (favorite : Favorite) (now : Int) : Bool × FavStore :=
  let res := getFavorites store
  let favorites := res.1
  let id := deriveId favorite
  if favorites.any (fun f => f.id == some id) then (false, res.2)
  else (true, some ({ favorite with timestamp := some now, id := some id } :: favorites))

/-- Embeds `removeFavorite(id)`: the filtered list is always persisted
(overwriting any intermediate migration write), and true is returned. -/
def removeFavorite (store : FavStore) (id : String) : Bool × FavStore :=
  let favorites := (getFavorites store).1
  (true, some (favorites.filter (fun f => !(f.id == some id))))

/-- Embeds `isFavorite(routeName, stopName, direction, dayType)`. -/
def isFavorite (store : FavStore) (routeName stopName : String) (direction : Int)
    (dayType : String) : Bool × FavStore :=
  let res := getFavorites store
  (res.1.any (fun f => f.routeName == routeName && f.stopName == some stopName &&
    f.direction == some direction && f.dayType == some dayType), res.2)

/-- Embeds `clearFavorites()`: removes the key. -/
def clearFavorites (_store : FavStore) : Bool × FavStore :=
  (true, none)

lemma migrateOne_of_truthy (f : Favorite) (h : truthyS f.type = true) :
    migrateOne f = f := by
  unfold migrateOne
  simp [h]

lemma migrateOne_type_truthy (f : Favorite) : truthyS (migrateOne f).type = true := by
  unfold migrateOne
  by_cases h : truthyS f.type
  · simp [h]
  · have h' : truthyS f.type = false := by
      cases hx : truthyS f.type
      · rfl
      · exact absurd hx h
    rw [h']
    simp only [Bool.not_false, if_true]
    by_cases hs : truthyS f.stopName
    · rw [hs]
      decide
    · have hs' : truthyS f.stopName = false := by
        cases hx : truthyS f.stopName
        · rfl
        · exact absurd hx hs
      rw [hs']
      decide

lemma migrateOne_id (f : Favorite) : (migrateOne f).id = f.id := by
  unfold migrateOne
  split <;> rfl

lemma migrateOne_ne_of_not_truthy (f : Favorite) (h : truthyS f.type = false) :
    migrateOne f ≠ f := by
  intro heq
  have := migrateOne_type_truthy f
  rw [heq, h] at this
  exact Bool.false_ne_true this

lemma getFavorites_fst_truthy (store : FavStore) :
    ∀ f ∈ (getFavorites store).1, truthyS f.type = true := by
  intro f hf
  unfold getFavorites at hf
  simp only [List.mem_map] at hf
  obtain ⟨g, _, rfl⟩ := hf
  exact migrateOne_type_truthy g

lemma getFavorites_of_truthy (l : List Favorite)
    (h : ∀ f ∈ l, truthyS f.type = true) :
    getFavorites (some l) = (l, some l) := by
  unfold getFavorites
  have hmap : l.map migrateOne = l := by
    calc l.map migrateOne = l.map id := List.map_congr_left (fun f hf => by
          rw [migrateOne_of_truthy f (h f hf)]; rfl)
    _ = l := List.map_id l
  have hany : l.any (fun f => !truthyS f.type) = false := by
    rw [List.any_eq_false]
    intro f hf
    rw [h f hf]
    decide
  simp [hmap, hany]

/-- Written from the spec's words for claim C6: an entry lacking a `type`
field is assigned `"stop"` if it carries a `stopName` and `"route"`
otherwise; other entries are untouched. -/
def specMigrateEntry (f : Favorite) : Favorite :=
  if f.type = none then
    { f with type := some (if f.stopName ≠ none then "stop" else "route") }
  else f

lemma migrateOne_eq_spec (f : Favorite)
    (ht : ∀ s, f.type = some s → s ≠ "") (hs : ∀ s, f.stopName = some s → s ≠ "") :
    migrateOne f = specMigrateEntry f := by
  unfold migrateOne specMigrateEntry
  cases hft : f.type with
  | none =>
    simp only [hft, truthyS, Bool.not_false, if_true]
    cases hfs : f.stopName with
    | none => simp [hfs, truthyS]
    | some s =>
      have hne : s ≠ "" := hs s hfs
      simp [hfs, truthyS, hne]
  | some s =>
    have hne : s ≠ "" := ht s hft
    simp [hft, truthyS, hne]

/-- C6: `getFavorites` migrates each entry lacking a `type` deterministically
("stop" when it carries a stopName, "route" otherwise), persists the
migrated list back exactly when at least one entry changed, and is
idempotent: reading again from the resulting store changes nothing.
Quantified over stores whose optional string fields are non-empty when
present (the only values this code ever writes; for JS an empty string is
falsy and would be treated as an absent field). -/
theorem C6_getFavorites_migration (store : FavStore)
    (hwf : ∀ f ∈ store.getD [], (∀ s, f.type = some s → s ≠ "") ∧
      (∀ s, f.stopName = some s → s ≠ "")) :
    (getFavorites store).1 = (store.getD []).map specMigrateEntry ∧
    ((∃ f ∈ store.getD [], migrateOne f ≠ f) →
      (getFavorites store).2 = some ((getFavorites store).1)) ∧
    ((∀ f ∈ store.getD [], migrateOne f = f) → (getFavorites store).2 = store) ∧
    getFavorites ((getFavorites store).2) = ((getFavorites store).1, (getFavorites store).2) := by
  refine ⟨?_, ?_, ?_, ?_⟩
  · show (store.getD []).map migrateOne = (store.getD []).map specMigrateEntry
    exact List.map_congr_left (fun f hf => migrateOne_eq_spec f (hwf f hf).1 (hwf f hf).2)
  · rintro ⟨f, hf, hne⟩
    have hfalse : truthyS f.type = false := by
      cases hx : truthyS f.type
      · rfl
      · exact absurd (migrateOne_of_truthy f hx) hne
    have hany : (store.getD []).any (fun f => !truthyS f.type) = true := by
      rw [List.any_eq_true]
      exact ⟨f, hf, by rw [hfalse]; rfl⟩
    show (if (store.getD []).any (fun f => !truthyS f.type) = true
      then some ((store.getD []).map migrateOne) else store)
        = some ((store.getD []).map migrateOne)
    rw [hany]
    simp
  · intro hall
    have hany : (store.getD []).any (fun f => !truthyS f.type) = false := by
      rw [List.any_eq_false]
      intro f hf
      have : truthyS f.type = true := by
        have := migrateOne_type_truthy f
        rwa [hall f hf] at this
      rw [this]
      decide
    show (if (store.getD []).any (fun f => !truthyS f.type) = true
      then some ((store.getD []).map migrateOne) else store) = store
    rw [hany]
    simp
  · by_cases hch : (store.getD []).any (fun f => !truthyS f.type) = true
    · have h2 : (getFavorites store).2 = some ((store.getD []).map migrateOne) := by
        show (if (store.getD []).any (fun f => !truthyS f.type) = true
          then some ((store.getD []).map migrateOne) else store)
            = some ((store.getD []).map migrateOne)
        rw [hch]
        simp
      rw [h2]
      have htr : ∀ f ∈ (store.getD []).map migrateOne, truthyS f.type = true := by
        intro f hf
        obtain ⟨g, _, rfl⟩ := List.mem_map.mp hf
        exact migrateOne_type_truthy g
      rw [getFavorites_of_truthy _ htr]
      exact Prod.ext rfl rfl
    · have hfalse : (store.getD []).any (fun f => !truthyS f.type) = false :=
        Bool.eq_false_iff.mpr hch
      have h2 : (getFavorites store).2 = store := by
        show (if (store.getD []).any (fun f => !truthyS f.type) = true
          then some ((store.getD []).map migrateOne) else store) = store
        rw [hfalse]
        simp
      rw [h2]
      exact Prod.ext rfl h2

/-- Witness for C6: a legacy stop entry gains type "stop", a legacy route
entry gains type "route", and the migrated list is persisted back. -/
theorem C6_witness :
    (getFavorites (some [{ routeName := "12", stopName := some "Main St" },
      { routeName := "7" }])).1
      = [{ routeName := "12", stopName := some "Main St", type := some "stop" },
         { routeName := "7", type := some "route" }] ∧
    (getFavorites (some [{ routeName := "12", stopName := some "Main St" },
      { routeName := "7" }])).2
      = some [{ routeName := "12", stopName := some "Main St", type := some "stop" },
         { routeName := "7", type := some "route" }] := by
  have h := C6_getFavorites_migration (some [{ routeName := "12", stopName := some "Main St" },
    { routeName := "7" }]) (by decide)
  constructor
  · exact h.1.trans (by decide)
  · have h2 := h.2.1 (by decide)
    rw [h2, h.1]
    decide

/-- The entry `addFavorite` prepends: `{...favorite, timestamp: Date.now(), id}`. -/
def storedEntry (favorite : Favorite) (now : Int) : Favorite :=
  { favorite with timestamp := some now, id := some (deriveId favorite) }

/-- C3: `addFavorite` is idempotent on the candidate's derived id. From any
registry state not yet containing that id, the first call prepends
`{...candidate, timestamp, id}` and returns true; a second call with the
same candidate returns false without modifying storage, and exactly one
stored entry carries the id. The candidate carries a (truthy) `type`, as
both data-model variants do — an untyped candidate would additionally be
rewritten by the read-migration of the second call. -/
theorem C3_addFavorite_idempotent (store : FavStore) (cand : Favorite) (now1 now2 : Int)
    (htype : truthyS cand.type = true)
    (hfresh : ∀ f ∈ (getFavorites store).1, f.id ≠ some (deriveId cand)) :
    (addFavorite store cand now1).1 = true ∧
    (getFavorites (addFavorite store cand now1).2).1
      = storedEntry cand now1 :: (getFavorites store).1 ∧
    (addFavorite (addFavorite store cand now1).2 cand now2).1 = false ∧
    (addFavorite (addFavorite store cand now1).2 cand now2).2
      = (addFavorite store cand now1).2 ∧
    ((getFavorites (addFavorite store cand now1).2).1.filter
      (fun f => f.id == some (deriveId cand))).length = 1 := by
  have hany1 : (getFavorites store).1.any (fun f => f.id == some (deriveId cand)) = false := by
    rw [List.any_eq_false]
    intro f hf
    simpa using hfresh f hf
  have hadd1 : addFavorite store cand now1
      = (true, some (storedEntry cand now1 :: (getFavorites store).1)) := by
    unfold addFavorite storedEntry
    simp [hany1]
  have htr : ∀ f ∈ (storedEntry cand now1 :: (getFavorites store).1),
      truthyS f.type = true := by
    intro f hf
    rcases List.mem_cons.mp hf with h | h
    · rw [h]
      exact htype
    · exact getFavorites_fst_truthy store f h
  have hgf2 : getFavorites (some (storedEntry cand now1 :: (getFavorites store).1))
      = (storedEntry cand now1 :: (getFavorites store).1,
         some (storedEntry cand now1 :: (getFavorites store).1)) :=
    getFavorites_of_truthy _ htr
  have hid : (storedEntry cand now1).id = some (deriveId cand) := rfl
  have hany2 : (storedEntry cand now1 :: (getFavorites store).1).any
      (fun f => f.id == some (deriveId cand)) = true := by
    rw [List.any_cons, hid]
    simp
  have hadd2 : addFavorite (addFavorite store cand now1).2 cand now2
      = (false, (addFavorite store cand now1).2) := by
    rw [hadd1]
    unfold addFavorite
    simp [hgf2, hany2]
  refine ⟨by rw [hadd1], ?_, by rw [hadd2], by rw [hadd2], ?_⟩
  · rw [hadd1]
    show (getFavorites (some _)).1 = _
    rw [hgf2]
  · rw [hadd1]
    show ((getFavorites (some _)).1.filter _).length = 1
    rw [hgf2]
    show (List.filter _ (_ :: _)).length = 1
    rw [List.filter_cons, hid]
    have htail : (getFavorites store).1.filter (fun f => f.id == some (deriveId cand)) = [] := by
      rw [List.filter_eq_nil_iff]
      intro f hf
      simpa using hfresh f hf
    simp [htail]

/-- Witness for C3: adding a concrete stop favorite twice to the empty
registry stores it once; the second call returns false and changes
nothing. -/
theorem C3_witness :
    (addFavorite none { type := some "stop", routeName := "12", stopName := some "Main St", direction := some 0, dayType := some "weekday" } 7).1 = true ∧
    (addFavorite (addFavorite none { type := some "stop", routeName := "12", stopName := some "Main St", direction := some 0, dayType := some "weekday" } 7).2 { type := some "stop", routeName := "12", stopName := some "Main St", direction := some 0, dayType := some "weekday" } 9).1 = false := by
  have h := C3_addFavorite_idempotent none { type := some "stop", routeName := "12", stopName := some "Main St", direction := some 0, dayType := some "weekday" } 7 9 (by decide) (by decide)
  exact ⟨h.1, h.2.2.1⟩

/-- Data-model shape of registry candidates/entries (spec §3): a route
favorite is tagged "route" and carries no stopName; a stop favorite is
tagged "stop". -/
def WellFormedCandidate (f : Favorite) : Prop :=
  (f.type = some "route" ∧ f.stopName = none) ∨ f.type = some "stop"

/-- Registry states reachable from the empty store by any sequence of
add/remove/clear operations with data-model-shaped candidates. -/
inductive ReachableFav : FavStore → Prop where
  | init : ReachableFav none
  | add {st : FavStore} (f : Favorite) (now : Int) :
      ReachableFav st → WellFormedCandidate f → ReachableFav (addFavorite st f now).2
  | remove {st : FavStore} (rid : String) :
      ReachableFav st → ReachableFav (removeFavorite st rid).2
  | clear {st : FavStore} :
      ReachableFav st → ReachableFav (clearFavorites st).2

lemma wf_truthy (f : Favorite) (h : WellFormedCandidate f) : truthyS f.type = true := by
  rcases h with ⟨ht, _⟩ | ht <;> rw [ht] <;> decide

lemma getFavorites_of_wf {st : FavStore} (h : ∀ f ∈ st.getD [], WellFormedCandidate f) :
    getFavorites st = (st.getD [], st) := by
  cases st with
  | none => rfl
  | some l => exact getFavorites_of_truthy l (fun f hf => wf_truthy f (h f hf))

lemma addFavorite_snd (st : FavStore) (cand : Favorite) (now : Int) :
    (addFavorite st cand now).2 =
      if (getFavorites st).1.any (fun f => f.id == some (deriveId cand)) = true
      then (getFavorites st).2
      else some (storedEntry cand now :: (getFavorites st).1) := by
  unfold addFavorite storedEntry
  by_cases hc : (getFavorites st).1.any (fun f => f.id == some (deriveId cand)) = true
  · simp [hc]
  · simp [hc]

lemma removeFavorite_snd (st : FavStore) (rid : String) :
    (removeFavorite st rid).2
      = some ((getFavorites st).1.filter (fun f => !(f.id == some rid))) := rfl

lemma reachable_entries_wf {st : FavStore} (h : ReachableFav st) :
    ∀ f ∈ st.getD [], WellFormedCandidate f := by
  induction h with
  | init =>
    intro f hf
    simp at hf
  | @add st cand now hst hwf ih =>
    intro f hf
    rw [addFavorite_snd] at hf
    split at hf
    · rw [getFavorites_of_wf ih] at hf
      exact ih f hf
    · simp only [Option.getD_some] at hf
      rcases List.mem_cons.mp hf with heq | hmem
    
      · rw [heq]
        rcases hwf with ⟨h1, h2⟩ | h1
        · exact Or.inl ⟨h1, h2⟩
        · exact Or.inr h1
      · rw [getFavorites_of_wf ih] at hmem
        exact ih f hmem
  | @remove st rid hst ih =>
    intro f hf
    rw [removeFavorite_snd] at hf
    simp only [Option.getD_some] at hf
    have hmem : f ∈ (getFavorites st).1 := List.mem_of_mem_filter hf
    rw [getFavorites_of_wf ih] at hmem
    exact ih f hmem
  | @clear st hst ih =>
    intro f hf
    simp [clearFavorites] at hf

/-- C4: over every registry state reachable by add/remove operations,
`isFavorite(routeName, stopName, direction, dayType)` returns true iff some
stored stop-variant entry (type "stop") matches all four fields exactly —
i.e. it agrees with `getFavorites()` filtered by variant and field
equality. -/
theorem C4_isFavorite_agrees (st : FavStore) (h : ReachableFav st)
    (routeName stopName : String) (direction : Int) (dayType : String) :
    (isFavorite st routeName stopName direction dayType).1 = true ↔
    ∃ f ∈ (getFavorites st).1, f.type = some "stop" ∧ f.routeName = routeName ∧
      f.stopName = some stopName ∧ f.direction = some direction ∧
      f.dayType = some dayType := by
  have hwf := reachable_entries_wf h
  have hgf := getFavorites_of_wf hwf
  constructor
  · intro hany
    unfold isFavorite at hany
    simp only [List.any_eq_true, Bool.and_eq_true, beq_iff_eq] at hany
    obtain ⟨f, hf, ⟨⟨⟨h1, h2⟩, h3⟩, h4⟩⟩ := hany
    refine ⟨f, hf, ?_, h1, h2, h3, h4⟩
    have hwff : WellFormedCandidate f := by
      apply hwf
      rw [hgf] at hf
      exact hf
    rcases hwff with ⟨_, hnone⟩ | hstop
    · rw [h2] at hnone
      cases hnone
    · exact hstop
  · rintro ⟨f, hf, ht, h1, h2, h3, h4⟩
    unfold isFavorite
    simp only [List.any_eq_true, Bool.and_eq_true, beq_iff_eq]
    exact ⟨f, hf, ⟨⟨h1, h2⟩, h3⟩, h4⟩

/-- Witness for C4 at a concrete reachable state: after adding one stop
favorite, `isFavorite` finds it. -/
theorem C4_witness :
    (isFavorite (addFavorite none { type := some "stop", routeName := "12", stopName := some "Main St", direction := some 0, dayType := some "weekday" } 5).2 "12" "Main St" 0 "weekday").1 = true := by
  have h := C4_isFavorite_agrees _
    (ReachableFav.add { type := some "stop", routeName := "12", stopName := some "Main St", direction := some 0, dayType := some "weekday" } 5 ReachableFav.init (Or.inr rfl))
    "12" "Main St" 0 "weekday"
  exact h.mpr (by decide)

lemma getFavorites_fst_ids (store : FavStore) :
    ((getFavorites store).1).map Favorite.id = (store.getD []).map Favorite.id := by
  show ((store.getD []).map migrateOne).map Favorite.id = _
  rw [List.map_map]
  exact List.map_congr_left (fun f _ => migrateOne_id f)

lemma getFavorites_snd_ids (store : FavStore) :
    (((getFavorites store).2).getD []).map Favorite.id
      = (store.getD []).map Favorite.id := by
  show ((if (store.getD []).any (fun f => !truthyS f.type) = true
    then some ((store.getD []).map migrateOne) else store).getD []).map Favorite.id = _
  by_cases hc : (store.getD []).any (fun f => !truthyS f.type) = true
  · rw [if_pos hc]
    simp only [Option.getD_some]
    exact getFavorites_fst_ids store
  · rw [if_neg hc]

/-- Counterexample to C9: when the registry still holds a legacy (untyped)
entry carrying the candidate's derived id, `addFavorite` does reject the
candidate with false, but storage is NOT left unchanged — the
read-migration inside the call persists the type-annotated list. -/
theorem C9_counterexample :
    (addFavorite (some [{ routeName := "12", stopName := some "Main St", id := some "12_Main St_0_weekday" }]) { type := some "stop", routeName := "12", stopName := some "Main St", direction := some 0, dayType := some "weekday" } 5).1 = false ∧
    (addFavorite (some [{ routeName := "12", stopName := some "Main St", id := some "12_Main St_0_weekday" }]) { type := some "stop", routeName := "12", stopName := some "Main St", direction := some 0, dayType := some "weekday" } 5).2 ≠ some [{ routeName := "12", stopName := some "Main St", id := some "12_Main St_0_weekday" }] := by
  decide

/-- C9 (amended): for every registry state whose stored entries have
pairwise-distinct ids, every registry operation (the read-migration,
`addFavorite`, `removeFavorite`, `clearFavorites`) preserves distinctness
of ids; `addFavorite` rejects (returns false) whenever an entry with the
candidate's derived id exists, leaving storage exactly as the embedded
read left it (unchanged up to the persisted type-migration). -/
theorem C9_id_unique_invariant (store : FavStore) (cand : Favorite) (rid : String) (now : Int)
    (h : ((store.getD []).map Favorite.id).Nodup) :
    ((((getFavorites store).2).getD []).map Favorite.id).Nodup ∧
    ((((addFavorite store cand now).2).getD []).map Favorite.id).Nodup ∧
    ((((removeFavorite store rid).2).getD []).map Favorite.id).Nodup ∧
    ((((clearFavorites store).2).getD []).map Favorite.id).Nodup ∧
    ((∃ f ∈ (getFavorites store).1, f.id = some (deriveId cand)) →
      (addFavorite store cand now).1 = false ∧
      (addFavorite store cand now).2 = (getFavorites store).2) := by
  have hfstids := getFavorites_fst_ids store
  have hsndids := getFavorites_snd_ids store
  refine ⟨hsndids ▸ h, ?_, ?_, by simp [clearFavorites], ?_⟩
  · rw [addFavorite_snd]
    by_cases hc : (getFavorites store).1.any (fun f => f.id == some (deriveId cand)) = true
    · rw [if_pos hc]
      exact hsndids ▸ h
    · rw [if_neg hc]
      simp only [Option.getD_some, List.map_cons]
      refine List.Nodup.cons ?_ (hfstids ▸ h)
      intro hmem
      obtain ⟨f, hf, hfid⟩ := List.mem_map.mp hmem
      have : (getFavorites store).1.any (fun f => f.id == some (deriveId cand)) = true := by
        rw [List.any_eq_true]
        refine ⟨f, hf, ?_⟩
        rw [hfid]
        simp [storedEntry]
      exact hc this
  · rw [removeFavorite_snd]
    simp only [Option.getD_some]
    have hsub : List.Sublist
        (((getFavorites store).1.filter (fun f => !(f.id == some rid))).map Favorite.id)
        (((getFavorites store).1).map Favorite.id) :=
      List.Sublist.map Favorite.id (List.filter_sublist _)
    exact List.Nodup.sublist hsub (hfstids ▸ h)
  · intro hex
    obtain ⟨f, hf, hfid⟩ := hex
    have hany : (getFavorites store).1.any (fun f => f.id == some (deriveId cand)) = true := by
      rw [List.any_eq_true]
      exact ⟨f, hf, by simp [hfid]⟩
    constructor
    · show (addFavorite store cand now).1 = false
      unfold addFavorite
      simp [hany]
    · rw [addFavorite_snd, if_pos hany]

/-- Witness for C9: a registry holding one route favorite rejects the same
candidate again, and id-distinctness is preserved by the attempted add. -/
theorem C9_witness :
    ((((addFavorite (some [{ type := some "route", routeName := "7", id := some "route_7" }]) { type := some "route", routeName := "7" } 3).2).getD []).map Favorite.id).Nodup ∧
    (addFavorite (some [{ type := some "route", routeName := "7", id := some "route_7" }]) { type := some "route", routeName := "7" } 3).1 = false := by
  have h := C9_id_unique_invariant (some [{ type := some "route", routeName := "7", id := some "route_7" }]) { type := some "route", routeName := "7" } "x" 3 (by decide)
  exact ⟨h.2.1, (h.2.2.2.2 (by decide)).1⟩

/-- Counterexample to C10: on a legacy (untyped) stored list,
`removeFavorite` with a non-matching id does not leave the other entries
unchanged — the read-migration persists them with a `type` field added. -/
theorem C10_counterexample :
    (removeFavorite (some [{ routeName := "12", stopName := some "Main St", id := some "a" }]) "zzz").2
      ≠ some [{ routeName := "12", stopName := some "Main St", id := some "a" }] := by
  decide

/-- C10 (amended): `removeFavorite(id)` persists exactly the migrated stored
list with every entry whose id equals the given id removed (all of them, if
duplicated): no surviving entry carries the id, the survivors keep their
relative order (a sublist of the migrated list), every non-matching
migrated entry survives, and true is returned even when nothing matched —
but entries lacking a `type` are additionally rewritten by the
read-migration rather than left byte-identical. -/
theorem C10_removeFavorite_filters (store : FavStore) (rid : String) :
    (removeFavorite store rid).1 = true ∧
    (removeFavorite store rid).2
      = some ((getFavorites store).1.filter (fun f => !(f.id == some rid))) ∧
    (∀ f ∈ ((removeFavorite store rid).2).getD [], f.id ≠ some rid) ∧
    (((removeFavorite store rid).2).getD []).Sublist ((getFavorites store).1) ∧
    (∀ f ∈ (getFavorites store).1, f.id ≠ some rid →
      f ∈ ((removeFavorite store rid).2).getD []) := by
  refine ⟨rfl, rfl, ?_, ?_, ?_⟩
  · intro f hf
    rw [removeFavorite_snd] at hf
    simp only [Option.getD_some] at hf
    have hp := List.of_mem_filter hf
    simpa using hp
  · rw [removeFavorite_snd]
    simp only [Option.getD_some]
    exact List.filter_sublist _
  · intro f hf hne
    rw [removeFavorite_snd]
    simp only [Option.getD_some]
    exact List.mem_filter.mpr ⟨hf, by simpa using hne⟩

/-! ## API Client (api.js, `fetchWithCache`)

The HTTP transport is injected: `http = some body` models a successful GET
whose response body is `body`; `http = none` models a thrown network/HTTP
error. `params` is the already-serialized `JSON.stringify(params)` string,
so `cacheKey = endpoint ++ params`. -/

/-- Result shape `{ data, fromCache, error? }` of `fetchWithCache`. -/
structure FetchResult where
  data : JsValue
  fromCache : Bool
  error : Option String
deriving DecidableEq, Repr

/-- The warning message attached when stale cached data is served after a
network failure. -/
def serverErrMsg : String := "Показаны сохранённые данные. Сервер временно недоступен."

/-- Embeds the try/catch part of `fetchWithCache`: the GET, the
store-on-success, and the catch block that falls back to the cache. -/
def fetchNetwork (store : LocalStore) (cacheKey : String) (useCache : Bool)
    (http : Option JsValue) (now : Int) : Except Unit FetchResult × LocalStore :=
  match http with
  | some body =>
    (Except.ok ⟨body, false, none⟩,
      if useCache && truthy body then setCache store cacheKey body now else store)
  | none =>
    match (getCache store cacheKey now).1 with
    | some v =>
      if truthy v then
        (Except.ok ⟨v, true, some serverErrMsg⟩, (getCache store cacheKey now).2)
      else (Except.error (), (getCache store cacheKey now).2)
    | none => (Except.error (), (getCache store cacheKey now).2)

/-- Embeds `fetchWithCache(endpoint, params, useCache)`: the initial
cache-hit test `if (cached)` (JS truthiness), then the network path. -/
def fetchWithCache (store : LocalStore) (endpoint params : String) (useCache : Bool)
    (http : Option JsValue) (now : Int) : Except Unit FetchResult × LocalStore :=
  let cacheKey := endpoint ++ params
  if useCache then
    match (getCache store cacheKey now).1 with
    | some v =>
      if truthy v then (Except.ok ⟨v, true, none⟩, (getCache store cacheKey now).2)
      else fetchNetwork (getCache store cacheKey now).2 cacheKey useCache http now
    | none => fetchNetwork (getCache store cacheKey now).2 cacheKey useCache http now
  else fetchNetwork store cacheKey useCache http now

deriving instance DecidableEq for Except

lemma getCache_some (store : LocalStore) (key : String) (now : Int) (v : JsValue)
    (h : (getCache store key now).1 = some v) :
    getCache store key now = (some v, store) := by
  unfold getCache at h ⊢
  split at h
  · simp at h
  · next item heq =>
    simp only [gt_iff_lt] at h ⊢
    split at h
    · simp at h
    · next hage =>
      have hv : item.data = v := Option.some.inj h
      rw [if_neg hage, hv]

/-- Counterexample to C8: the cache holds a non-expired entry for the key,
yet `fetchWithCache` still performs the network request and overwrites the
entry — a falsy cached value (here `false`) fails the JS truthiness test
`if (cached)`, so "holds a non-expired entry" alone does not suffice. -/
theorem C8_counterexample :
    (getCache [("gtfs_cache_/api/routes", ⟨JsValue.bool false, 0⟩)] "/api/routes" 1).1
      = some (JsValue.bool false) ∧
    fetchWithCache [("gtfs_cache_/api/routes", ⟨JsValue.bool false, 0⟩)] "/api/routes" ""
      true (some (JsValue.str "net")) 1
      = (Except.ok ⟨JsValue.str "net", false, none⟩,
         [("gtfs_cache_/api/routes", ⟨JsValue.str "net", 1⟩)]) := by
  decide

/-- C8 (amended): with `useCache` enabled and the Response Cache holding a
non-expired entry with a truthy value under `cacheKey = endpoint ++ params`,
`fetchWithCache` returns `{data: cachedValue, fromCache: true}` with no
error message, leaves the store unchanged, and performs no network request
(the result is the same whatever the injected transport would answer). -/
theorem C8_fetchWithCache_cache_hit (store : LocalStore) (endpoint params : String)
    (http : Option JsValue) (now : Int) (v : JsValue)
    (hv : (getCache store (endpoint ++ params) now).1 = some v)
    (htr : truthy v = true) :
    fetchWithCache store endpoint params true http now
      = (Except.ok ⟨v, true, none⟩, store) := by
  have hfull := getCache_some _ _ _ _ hv
  unfold fetchWithCache
  simp [hfull, htr]

/-- Witness for C8: a fresh truthy entry is served from the cache as-is. -/
theorem C8_witness :
    fetchWithCache [("gtfs_cache_/api/routes", ⟨JsValue.str "r", 0⟩)] "/api/routes" ""
      true (some (JsValue.str "net")) 1
      = (Except.ok ⟨JsValue.str "r", true, none⟩,
         [("gtfs_cache_/api/routes", ⟨JsValue.str "r", 0⟩)]) := by
  exact C8_fetchWithCache_cache_hit _ "/api/routes" "" (some (JsValue.str "net")) 1
    (JsValue.str "r") (by decide) (by decide)

/-- Store state after the initial cache lookup of `fetchWithCache` (the
lookup happens only when `useCache`; it may evict an expired entry). -/
def storeAfterLookup (store : LocalStore) (cacheKey : String) (useCache : Bool)
    (now : Int) : LocalStore :=
  if useCache then (getCache store cacheKey now).2 else store

/-- The fallback read the catch block of `fetchWithCache` performs, through
the same TTL-enforcing `getCache`. -/
def fallbackRead (store : LocalStore) (cacheKey : String) (useCache : Bool)
    (now : Int) : Option JsValue :=
  (getCache (storeAfterLookup store cacheKey useCache now) cacheKey now).1

lemma fetchNetwork_fail_served (store : LocalStore) (cacheKey : String) (useCache : Bool)
    (now : Int) (v : JsValue) (hv : (getCache store cacheKey now).1 = some v)
    (htr : truthy v = true) :
    fetchNetwork store cacheKey useCache none now
      = (Except.ok ⟨v, true, some serverErrMsg⟩, (getCache store cacheKey now).2) := by
  unfold fetchNetwork
  rw [hv]
  simp [htr]

lemma fetchNetwork_fail_propagates (store : LocalStore) (cacheKey : String) (useCache : Bool)
    (now : Int) (hfalsy : truthyOpt (getCache store cacheKey now).1 = false) :
    (fetchNetwork store cacheKey useCache none now).1 = Except.error () := by
  unfold fetchNetwork
  cases hc : (getCache store cacheKey now).1 with
  | none => rfl
  | some v =>
    rw [hc] at hfalsy
    have hvf : truthy v = false := hfalsy
    simp [hvf]

lemma fetchWithCache_miss (store : LocalStore) (endpoint params : String) (useCache : Bool)
    (http : Option JsValue) (now : Int)
    (hmiss : useCache = true →
      truthyOpt ((getCache store (endpoint ++ params) now).1) = false) :
    fetchWithCache store endpoint params useCache http now
      = fetchNetwork (storeAfterLookup store (endpoint ++ params) useCache now)
          (endpoint ++ params) useCache http now := by
  cases useCache with
  | false =>
    unfold fetchWithCache storeAfterLookup
    simp
  | true =>
    have h := hmiss rfl
    unfold fetchWithCache storeAfterLookup
    simp only [if_true]
    cases hc : (getCache store (endpoint ++ params) now).1 with
    | none => rfl
    | some v =>
      rw [hc] at h
      have hvf : truthy v = false := h
      simp [hvf]

/-- Counterexample to C7: after a failed request, a cached value for the
key is still present — the TTL-enforcing `getCache` returns it — yet
`fetchWithCache` propagates the failure instead of serving it, because the
falsy value (here the number 0) fails the JS truthiness test `if (cached)`. -/
theorem C7_counterexample :
    (getCache [("gtfs_cache_/api/x", ⟨JsValue.num 0, 0⟩)] "/api/x" 1).1
      = some (JsValue.num 0) ∧
    (fetchWithCache [("gtfs_cache_/api/x", ⟨JsValue.num 0, 0⟩)] "/api/x" "" false none 1).1
      = Except.error () := by
  decide

/-- C7 (amended): when the HTTP request fails, `fetchWithCache` re-reads the
cache (through the same TTL-enforcing `getCache`) for the same `cacheKey`:
if a truthy value is present it returns `{data: cachedValue, fromCache:
true}` together with a non-empty error message; if none is present (or the
present value is falsy) the failure is propagated to the caller. The
hypothesis `hmiss` states that the request is actually performed: with
`useCache` the initial lookup did not already serve a truthy hit. -/
theorem C7_fetchWithCache_fallback (store : LocalStore) (endpoint params : String)
    (useCache : Bool) (now : Int)
    (hmiss : useCache = true →
      truthyOpt ((getCache store (endpoint ++ params) now).1) = false) :
    (∀ v, fallbackRead store (endpoint ++ params) useCache now = some v →
      truthy v = true →
      ((fetchWithCache store endpoint params useCache none now).1
        = Except.ok ⟨v, true, some serverErrMsg⟩ ∧ serverErrMsg ≠ "")) ∧
    (truthyOpt (fallbackRead store (endpoint ++ params) useCache now) = false →
      (fetchWithCache store endpoint params useCache none now).1 = Except.error ()) := by
  rw [fetchWithCache_miss store endpoint params useCache none now hmiss]
  constructor
  · intro v hv htr
    rw [fetchNetwork_fail_served _ _ _ _ v hv htr]
    exact ⟨rfl, by decide⟩
  · intro hfalsy
    exact fetchNetwork_fail_propagates _ _ _ _ hfalsy

/-- Witness for C7: with the backend down, a previously cached truthy value
is served with `fromCache: true` and a non-empty warning; with an empty
cache the failure propagates. -/
theorem C7_witness :
    ((fetchWithCache [("gtfs_cache_/api/stops", ⟨JsValue.str "cached", 0⟩)]
        "/api/stops" "" false none 1).1
      = Except.ok ⟨JsValue.str "cached", true, some serverErrMsg⟩ ∧ serverErrMsg ≠ "") ∧
    (fetchWithCache [] "/api/stops" "" true none 1).1 = Except.error () := by
  constructor
  · exact (C7_fetchWithCache_fallback [("gtfs_cache_/api/stops", ⟨JsValue.str "cached", 0⟩)]
      "/api/stops" "" false 1 (by intro h; cases h)).1 (JsValue.str "cached")
      (by decide) (by decide)
  · exact (C7_fetchWithCache_fallback [] "/api/stops" "" true 1 (by intro h; decide)).2
      (by decide)

/-! ## Batch Departure Loader (App.jsx, `loadAllNextDepartures`) -/

/-- Fuel-driven chunking; `chunksOf` instantiates the fuel with the list
length, mirroring the `for (let i = 0; i < n; i += chunkSize)` slice loop
while staying structurally recursive. -/
def chunksOfFuel (k : Nat) : Nat → List α → List (List α)
  | _, [] => []
  | 0, _ :: _ => []
  | fuel + 1, x :: xs => (x :: xs).take k :: chunksOfFuel k fuel ((x :: xs).drop k)

/-- Embeds the `stopsData.slice(i, i + chunkSize)` loop: consecutive chunks
of size `k` (the last one possibly shorter). -/
def chunksOf (k : Nat) (xs : List α) : List (List α) :=
  chunksOfFuel k xs.length xs

/-- Embeds the per-stop body of a chunk's `Promise.all`: a successful fetch
publishes `(stop, next)`; the catch block only logs and publishes nothing
for that stop. -/
def publishStop (fetch : String → Option (List String)) (nowH nowM : Nat)
    (acc : List (String × Option Departure)) (stop : String) :
    List (String × Option Departure) :=
  match fetch stop with
  | some schedule => acc ++ [(stop, getNextDeparture schedule nowH nowM)]
  | none => acc

/-- One chunk: every member fetch settles before the next chunk starts. -/
def publishChunk (fetch : String → Option (List String)) (nowH nowM : Nat)
    (acc : List (String × Option Departure)) (chunk : List String) :
    List (String × Option Departure) :=
  chunk.foldl (publishStop fetch nowH nowM) acc

/-- Embeds `loadAllNextDepartures(stopsData, routeName, dir, dt)` with the
guard `if (!routeName || !stopsData?.length) return`. `fetch stop` is the
injected `getSchedule` for the fixed route/direction/dayType (`none` = the
fetch threw); the result is the published per-stop map, in publication
order. -/
def loadAllNextDepartures (routeName : String) (stopsData : List String)
    (fetch : String → Option (List String)) (nowH nowM : Nat) :
    List (String × Option Departure) :=
  if routeName == "" || stopsData.isEmpty then []
  else (chunksOf 5 stopsData).foldl (publishChunk fetch nowH nowM) []

lemma chunksOfFuel_flatten {α : Type} (k : Nat) (hk : 0 < k) :
    ∀ (fuel : Nat) (xs : List α), xs.length ≤ fuel →
      (chunksOfFuel k fuel xs).flatten = xs := by
  intro fuel
  induction fuel with
  | zero =>
    intro xs h
    cases xs with
    | nil => rfl
    | cons a as => simp at h
  | succ n ih =>
    intro xs h
    cases xs with
    | nil => rfl
    | cons a as =>
      show ((a :: as).take k :: chunksOfFuel k n ((a :: as).drop k)).flatten = a :: as
      rw [List.flatten_cons, ih ((a :: as).drop k) ?_, List.take_append_drop]
      rw [List.length_drop]
      simp only [List.length_cons] at h ⊢
      omega
  
lemma chunksOfFuel_mem {α : Type} (k : Nat) (hk : 0 < k) :
    ∀ (fuel : Nat) (xs : List α) (c : List α),
      c ∈ chunksOfFuel k fuel xs → c ≠ [] ∧ c.length ≤ k := by
  intro fuel
  induction fuel with
  | zero =>
    intro xs c hc
    cases xs with
    | nil => simp [chunksOfFuel] at hc
    | cons a as => simp [chunksOfFuel] at hc
  | succ n ih =>
    intro xs c hc
    cases xs with
    | nil => simp [chunksOfFuel] at hc
    | cons a as =>
      rcases List.mem_cons.mp hc with h | h
      · subst h
        constructor
        · cases k with
          | zero => exact absurd hk (by omega)
          | succ m => simp [List.take_succ_cons]
        · rw [List.length_take]
          omega
      · exact ih _ c h

lemma chunksOf_flatten {α : Type} (k : Nat) (hk : 0 < k) (xs : List α) :
    (chunksOf k xs).flatten = xs :=
  chunksOfFuel_flatten k hk xs.length xs le_rfl

lemma publishChunk_eq (fetch : String → Option (List String)) (nowH nowM : Nat) :
    ∀ (chunk : List String) (acc : List (String × Option Departure)),
    publishChunk fetch nowH nowM acc chunk
      = acc ++ chunk.filterMap (fun s => (fetch s).map
          (fun sched => (s, getNextDeparture sched nowH nowM))) := by
  intro chunk
  induction chunk with
  | nil =>
    intro acc
    simp [publishChunk]
  | cons a as ih =>
    intro acc
    show publishChunk fetch nowH nowM (publishStop fetch nowH nowM acc a) as = _
    rw [ih]
    cases hf : fetch a with
    | none => simp [publishStop, hf]
    | some sched => simp [publishStop, hf]

lemma foldl_publishChunk (fetch : String → Option (List String)) (nowH nowM : Nat) :
    ∀ (chunks : List (List String)) (acc : List (String × Option Departure)),
    chunks.foldl (publishChunk fetch nowH nowM) acc
      = acc ++ (chunks.flatten).filterMap (fun s => (fetch s).map
          (fun sched => (s, getNextDeparture sched nowH nowM))) := by
  intro chunks
  induction chunks with
  | nil =>
    intro acc
    simp
  | cons c cs ih =>
    intro acc
    show cs.foldl _ (publishChunk fetch nowH nowM acc c) = _
    rw [ih, publishChunk_eq]
    simp [List.flatten_cons]

/-- Counterexample to C5: over 12 stops with the fetch for stop 7 failing,
the published per-stop results contain NO entry at all for stop 7 — the
catch block only logs, so no explicit "unknown" result is recorded; only
the 11 successful stops appear. -/
theorem C5_counterexample :
    (loadAllNextDepartures "12"
      ["s01", "s02", "s03", "s04", "s05", "s06", "s07", "s08", "s09", "s10", "s11", "s12"]
      (fun s => if s == "s07" then none else some []) 12 0).find?
        (fun p => p.1 == "s07") = none ∧
    (loadAllNextDepartures "12"
      ["s01", "s02", "s03", "s04", "s05", "s06", "s07", "s08", "s09", "s10", "s11", "s12"]
      (fun s => if s == "s07" then none else some []) 12 0).length = 11 := by
  decide

/-- C5 (amended): the batch loader partitions the stops into consecutive
chunks of size 5 (joining the chunks reproduces the stop list; every chunk
is nonempty with at most 5 stops) and processes them in order; a fetch
failure for one stop is caught and does not abort the batch or the other
stops — the published results are exactly one `(stop, next)` entry per
SUCCESSFUL stop, in order, and nothing (not an explicit "unknown") for a
failed stop. -/
theorem C5_batch_loader (routeName : String) (stops : List String)
    (fetch : String → Option (List String)) (nowH nowM : Nat)
    (hroute : routeName ≠ "") :
    (chunksOf 5 stops).flatten = stops ∧
    (∀ c ∈ chunksOf 5 stops, c ≠ [] ∧ c.length ≤ 5) ∧
    loadAllNextDepartures routeName stops fetch nowH nowM
      = stops.filterMap (fun s => (fetch s).map
          (fun sched => (s, getNextDeparture sched nowH nowM))) := by
  refine ⟨chunksOf_flatten 5 (by decide) stops, ?_, ?_⟩
  · intro c hc
    exact chunksOfFuel_mem 5 (by decide) stops.length stops c hc
  · unfold loadAllNextDepartures
    have hbeq : (routeName == "") = false := by
      simp [hroute]
    rw [hbeq]
    by_cases he : stops.isEmpty = true
    · have hnil : stops = [] := by
        cases stops with
        | nil => rfl
        | cons a as => simp at he
      subst hnil
      simp
    · have he' : stops.isEmpty = false := Bool.eq_false_iff.mpr he
      rw [he']
      simp only [Bool.or_self, Bool.false_eq_true, if_false]
      rw [foldl_publishChunk, chunksOf_flatten 5 (by decide)]
      simp

/-- Witness for C5: 12 stops yield chunks of sizes 5, 5 and 2, and with the
fetch for stop a7 failing the published results list the 11 other stops in
order with their computed next departures. -/
theorem C5_witness :
    (chunksOf 5 ["a1", "a2", "a3", "a4", "a5", "a6", "a7", "a8", "a9", "a10", "a11", "a12"]).map
      List.length = [5, 5, 2] ∧
    loadAllNextDepartures "7"
      ["a1", "a2", "a3", "a4", "a5", "a6", "a7", "a8", "a9", "a10", "a11", "a12"]
      (fun s => if s == "a7" then none else some ["10:00"]) 9 30
      = [("a1", some ⟨"10:00", 30⟩), ("a2", some ⟨"10:00", 30⟩), ("a3", some ⟨"10:00", 30⟩),
         ("a4", some ⟨"10:00", 30⟩), ("a5", some ⟨"10:00", 30⟩), ("a6", some ⟨"10:00", 30⟩),
         ("a8", some ⟨"10:00", 30⟩), ("a9", some ⟨"10:00", 30⟩), ("a10", some ⟨"10:00", 30⟩),
         ("a11", some ⟨"10:00", 30⟩), ("a12", some ⟨"10:00", 30⟩)] := by
  have h := C5_batch_loader "7"
    ["a1", "a2", "a3", "a4", "a5", "a6", "a7", "a8", "a9", "a10", "a11", "a12"]
    (fun s => if s == "a7" then none else some ["10:00"]) 9 30 (by decide)
  refine ⟨by decide, ?_⟩
  rw [h.2.2]
  decide
